import Mathlib

/-!
Verification of the model-registry and health-check components of the
ML-Engineer-Challenge repository.

The embedding below translates, definition by definition,

  * `scripts/models/model_registry.py` (class `ModelRegistry`), and
  * `scripts/docker/health_check.py` (class `HealthChecker` and the
    `__main__` entry point)

into Lean.  Python dictionaries become association lists that keep
insertion order (lookups take the first matching key; assignment of an
existing key updates it in place, a new key is appended, exactly the
Python `dict` semantics relevant here).  The registry file on disk is an
optional document (`none` models a missing file).  `datetime.now()` is an
effect, so the current timestamp is an explicit argument of
`register_model`; timestamps are ISO strings compared lexicographically,
as the Python code does.  The health probes perform network traffic, so a
probe is abstracted as the sequence of booleans it returns, indexed by
attempt number; `time.sleep` is modelled by counting sleep calls.
-/

set_option autoImplicit false

namespace MLChallenge

/-- One registry record: the `model_info` dictionary built by
`ModelRegistry.register_model`.  Metric values are numeric in the source
(`Dict[str, float]`); no claim computes with them, so they are embedded
as integers; metadata values are likewise embedded as strings. -/
structure ModelInfo where
  name : String
  version : String
  model_path : String
  model_type : String
  metrics : List (String × Int)
  metadata : List (String × String)
  registered_at : String
  status : String
deriving Repr, DecidableEq

/-- The registry mapping: composite key `name:version` to record, in
insertion order, as stored in `self.registry` and in the JSON document. -/
abbrev RegistryDoc := List (String × ModelInfo)

/-- Python `dict` lookup (`d.get(k)` / `d[k]`): first entry with the key. -/
def dictLookup : RegistryDoc → String → Option ModelInfo
  | [], _ => none
  | (k, v) :: rest, key => if k = key then some v else dictLookup rest key

/-- Python `dict` assignment `d[key] = v`: update in place when the key is
present, append otherwise. -/
def dictSet : RegistryDoc → String → ModelInfo → RegistryDoc
  | [], key, v => [(key, v)]
  | (k, v0) :: rest, key, v =>
    if k = key then (key, v) :: rest else (k, v0) :: dictSet rest key v

/-- Python `d[key]['status'] = st`: mutate the status field of the record
stored under `key`, leaving every other entry and field alone. -/
def dictSetStatus : RegistryDoc → String → String → RegistryDoc
  | [], _, _ => []
  | (k, v) :: rest, key, st =>
    if k = key then (k, { v with status := st }) :: rest
    else (k, v) :: dictSetStatus rest key st

/-- The observable state of one `ModelRegistry` instance: `registry` is
the in-memory mapping `self.registry`; `store` is the persisted JSON
document at `self.registry_path` (`none` when the file does not exist). -/
structure RegistryState where
  registry : RegistryDoc
  store : Option RegistryDoc
deriving Repr, DecidableEq

/-- `ModelRegistry.__init__` and `_load_registry`: load the document if
the file exists, otherwise start from the empty mapping. -/
def registry_init (doc : Option RegistryDoc) : RegistryState :=
  { registry := doc.getD [], store := doc }

/-- Environment step, not a method of the class: the persisted document
changes under the running instance (for example another process or a
second `ModelRegistry` instance saves the file).  The in-memory mapping
of this instance is untouched. -/
def doc_changed (s : RegistryState) (doc : RegistryDoc) : RegistryState :=
  { s with store := some doc }

/-- `ModelRegistry.register_model`: build the record (status `active`,
`registered_at` the current time), assign it under `name:version`, then
`_save_registry` (which writes `self.registry` to the file). -/
def register_model (s : RegistryState) (name version model_path model_type : String)
    (metrics : List (String × Int)) (metadata : Option (List (String × String)))
    (now : String) : RegistryState :=
  let model_info : ModelInfo :=
    { name := name, version := version, model_path := model_path,
      model_type := model_type, metrics := metrics,
      metadata := metadata.getD [], registered_at := now, status := "active" }
  let model_key := name ++ ":" ++ version
  let registry2 := dictSet s.registry model_key model_info
  { registry := registry2, store := some registry2 }

/-- The sort key of `get_model_info`: `self.registry[k]['registered_at']`.
Total version of the Python indexing; every key it is applied to below is
a key of the mapping, where the lookup succeeds. -/
def registered_at_key (d : RegistryDoc) (k : String) : String :=
  ((dictLookup d k).map ModelInfo.registered_at).getD ""

/-- Lexicographic comparison of character lists: the order Python uses to
compare the `registered_at` strings inside `max(..., key=...)`. -/
def pyCharsLt : List Char → List Char → Bool
  | [], [] => false
  | [], _ :: _ => true
  | _ :: _, [] => false
  | a :: as, b :: bs => if a < b then true else if b < a then false else pyCharsLt as bs

/-- Python string comparison `a < b` (lexicographic on characters).
`pyStrLt_iff_lt` below shows it agrees with the standard strict order on
`String`. -/
def pyStrLt (a b : String) : Bool := pyCharsLt a.data b.data

/-- Accumulator step of Python `max(keys, key=...)`: replace the current
maximum only on a strictly larger key value, so the first maximum wins. -/
def maxStep (d : RegistryDoc) (acc k2 : String) : String :=
  if pyStrLt (registered_at_key d acc) (registered_at_key d k2) then k2 else acc

/-- Python `max(model_versions, key=lambda k: registry[k]['registered_at'])`,
returning `none` on the empty list (the code guards that case first). -/
def maxByRegisteredAt (d : RegistryDoc) : List String → Option String
  | [] => none
  | k :: ks => some (ks.foldl (maxStep d) k)

/-- Python `k.startswith(p)`: character-level prefix test. -/
def pyStartsWith (p k : String) : Bool := p.data.isPrefixOf k.data

/-- The comprehension in `get_model_info`:
`[k for k in self.registry.keys() if k.startswith(name + ":")]`. -/
def prefixKeys (s : RegistryState) (name : String) : List String :=
  (s.registry.map Prod.fst).filter (fun k => pyStartsWith (name ++ ":") k)

/-- The `version == "latest"` branch of `get_model_info`: scan the keys
with the `name:` prefix, return `None` when there are none, otherwise the
record of the key with the maximal `registered_at`. -/
def resolve_latest (s : RegistryState) (name : String) : Option ModelInfo :=
  match maxByRegisteredAt s.registry (prefixKeys s name) with
  | none => none
  | some latest_key => dictLookup s.registry latest_key

/-- `ModelRegistry.get_model_info`. -/
def get_model_info (s : RegistryState) (name version : String) : Option ModelInfo :=
  if version = "latest" then resolve_latest s name
  else dictLookup s.registry (name ++ ":" ++ version)

/-- `ModelRegistry.list_models`: returns `self.registry`. -/
def list_models (s : RegistryState) : RegistryDoc := s.registry

/-- `ModelRegistry.update_model_status`: when `name:version` is present,
set its status field and save; otherwise fall through and return (the
source has no `else` branch, raises nothing and writes nothing). -/
def update_model_status (s : RegistryState) (name version status : String) :
    RegistryState :=
  let model_key := name ++ ":" ++ version
  match dictLookup s.registry model_key with
  | some _ =>
    let registry2 := dictSetStatus s.registry model_key status
    { registry := registry2, store := some registry2 }
  | none => s

/-- The error taxonomy the interface could signal for these operations. -/
inductive RegError where
  | NotFound
  | InvalidArgument
deriving Repr, DecidableEq

/-- One registry API call. -/
inductive RegOp where
  | register (name version model_path model_type : String)
      (metrics : List (String × Int)) (metadata : Option (List (String × String)))
      (now : String)
  | updateStatus (name version status : String)
  | getInfo (name version : String)
  | listAll

/-- What a registry API call returns to its caller: a plain return
(Python `None`), a record or its absence, the full listing, or a raised
error.  The translated methods raise on none of these paths, so
`RegistryStep` below never produces `fail`; the constructor states what
failing would look like at this interface. -/
inductive RegOutcome where
  | ret
  | info (r : Option ModelInfo)
  | listing (d : RegistryDoc)
  | fail (e : RegError)
deriving Repr, DecidableEq

/-- One API call as a step on the instance state, paired with the value
delivered to the caller.  Each branch delegates to the translation of the
corresponding method. -/
def RegistryStep (s : RegistryState) : RegOp → RegistryState × RegOutcome
  | .register n v p t m md now => (register_model s n v p t m md now, .ret)
  | .updateStatus n v st => (update_model_status s n v st, .ret)
  | .getInfo n v => (s, .info (get_model_info s n v))
  | .listAll => (s, .listing (list_models s))

/-! Concrete registry states used to evaluate the theorems. -/

/-- A fresh instance over a missing registry file. -/
def exState0 : RegistryState := registry_init none

/-- `("m", "v1")` registered at t1. -/
def exStateV1 : RegistryState :=
  register_model exState0 "m" "v1" "models/m1.pth" "classification"
    [("accuracy", 1)] none "2024-01-01T00:00:00"

/-- `("m", "v2")` registered at t2 > t1 on top of `exStateV1`. -/
def exStateV1V2 : RegistryState :=
  register_model exStateV1 "m" "v2" "models/m2.pth" "classification"
    [("accuracy", 2)] none "2024-06-01T00:00:00"

/-- A record registered under the literal version `"latest"` at t1. -/
def exStateLat : RegistryState :=
  register_model exState0 "m" "latest" "models/mL.pth" "classification"
    [] none "2024-01-01T00:00:00"

/-- `("m", "v2")` registered at t2 > t1 on top of `exStateLat`. -/
def exStateLatV2 : RegistryState :=
  register_model exStateLat "m" "v2" "models/m2.pth" "classification"
    [] none "2024-06-01T00:00:00"

/-- A persisted document holding the `m:v1` record. -/
def exDocV1 : RegistryDoc := exStateV1.registry

/-! Health checker: `scripts/docker/health_check.py`. -/

/-- Outcome of `HealthChecker.run_health_check`: the boolean the method
returns, together with how many times the probe was invoked and how many
times `time.sleep(retry_delay)` ran. -/
structure LoopResult where
  passed : Bool
  invocations : Nat
  sleeps : Nat
deriving Repr, DecidableEq

/-- `max_retries = 30`, a local constant of `run_health_check`. -/
def max_retries : Nat := 30

/-- `retry_delay = 2` seconds, a local constant of `run_health_check`. -/
def retry_delay : Nat := 2

/-- The loop `for attempt in range(max_retries)` of `run_health_check`,
parametrised by the attempts that remain (`fuel`, instantiated with
`max_retries` at the single call site) and the current attempt index.  A
true probe returns immediately; a false probe is followed by
`time.sleep(retry_delay)` and the next iteration; a fall through of the
loop returns `False`. -/
def retryFrom (probe : Nat → Bool) : Nat → Nat → LoopResult
  | _, 0 => { passed := false, invocations := 0, sleeps := 0 }
  | attempt, fuel + 1 =>
    if probe attempt then { passed := true, invocations := 1, sleeps := 0 }
    else
      let r := retryFrom probe (attempt + 1) fuel
      { passed := r.passed, invocations := r.invocations + 1, sleeps := r.sleeps + 1 }

/-- A `HealthChecker` instance: the four probes of `self.checks`, each
abstracted as the sequence of booleans it returns per attempt. -/
structure HealthChecker where
  api_probe : Nat → Bool
  database_probe : Nat → Bool
  redis_probe : Nat → Bool
  models_probe : Nat → Bool

/-- The dictionary `self.checks`: name to probe, `none` off the four keys. -/
def HealthChecker.checks (hc : HealthChecker) (service_type : String) :
    Option (Nat → Bool) :=
  if service_type = "api" then some hc.api_probe
  else if service_type = "database" then some hc.database_probe
  else if service_type = "redis" then some hc.redis_probe
  else if service_type = "models" then some hc.models_probe
  else none

/-- `HealthChecker.run_health_check`: unknown service types return
`False` at once (no probe invocation, no sleep); otherwise run the retry
loop on the selected probe. -/
def run_health_check (hc : HealthChecker) (service_type : String) : LoopResult :=
  match hc.checks service_type with
  | none => { passed := false, invocations := 0, sleeps := 0 }
  | some probe => retryFrom probe 0 max_retries

/-- The `__main__` block, given one positional argument: exit code 0 when
`run_health_check` returns `True`, exit code 1 otherwise. -/
def main_exit_code (hc : HealthChecker) (service_type : String) : Nat :=
  if (run_health_check hc service_type).passed then 0 else 1

/-- A probe that fails on every attempt. -/
def alwaysFalse : Nat → Bool := fun _ => false

/-- A probe that returns false, false, then true from the third attempt on. -/
def falseFalseTrue : Nat → Bool := fun i => decide (2 ≤ i)

/-- A checker whose probes all always fail. -/
def hcAllFalse : HealthChecker :=
  { api_probe := alwaysFalse, database_probe := alwaysFalse,
    redis_probe := alwaysFalse, models_probe := alwaysFalse }

/-- A checker whose api probe returns false, false, true. -/
def hcFFT : HealthChecker :=
  { api_probe := falseFalseTrue, database_probe := alwaysFalse,
    redis_probe := alwaysFalse, models_probe := alwaysFalse }

/-- The record registered under the literal version `"latest"` in `exStateLat`. -/
def exRecLat : ModelInfo :=
  { name := "m", version := "latest", model_path := "models/mL.pth",
    model_type := "classification", metrics := [], metadata := [],
    registered_at := "2024-01-01T00:00:00", status := "active" }

/-- The `("m", "v2")` record of `exStateLatV2`. -/
def exRecLatV2 : ModelInfo :=
  { name := "m", version := "v2", model_path := "models/m2.pth",
    model_type := "classification", metrics := [], metadata := [],
    registered_at := "2024-06-01T00:00:00", status := "active" }

/-! ## Helper lemmas -/

theorem pyCharsLt_iff (as bs : List Char) : pyCharsLt as bs = true ↔ as < bs := by
  induction as generalizing bs with
  | nil =>
    cases bs with
    | nil => simp [pyCharsLt]
    | cons b bs => simp [pyCharsLt]; exact List.nil_lt_cons b bs
  | cons a as ih =>
    cases bs with
    | nil => simp [pyCharsLt]
    | cons b bs =>
      simp only [pyCharsLt]
      split_ifs with h1 h2
      · simp only [true_iff]
        exact List.Lex.rel h1
      · simp only [false_iff]
        intro h
        cases h with
        | cons h => exact absurd h2 (lt_irrefl a)
        | rel h => exact absurd h h1
      · have hab : a = b := le_antisymm (not_lt.mp h2) (not_lt.mp h1)
        subst hab
        rw [ih]
        constructor
        · intro h; exact List.Lex.cons h
        · intro h
          cases h with
          | cons h => exact h
          | rel h => exact absurd h h1

/-- The embedded Python string comparison agrees with the standard strict
order on `String`. -/
theorem pyStrLt_iff_lt (a b : String) : pyStrLt a b = true ↔ a < b := by
  rw [String.lt_iff_toList_lt]
  exact pyCharsLt_iff a.data b.data

theorem dictLookup_mem_keys {d : RegistryDoc} {k : String} {r : ModelInfo}
    (h : dictLookup d k = some r) : k ∈ d.map Prod.fst := by
  induction d with
  | nil => cases h
  | cons e d ih =>
    obtain ⟨k0, v0⟩ := e
    simp only [dictLookup] at h
    simp only [List.map_cons, List.mem_cons]
    by_cases hk : k0 = k
    · exact Or.inl hk.symm
    · rw [if_neg hk] at h
      exact Or.inr (ih h)

theorem mem_keys_dictLookup {d : RegistryDoc} {k : String}
    (h : k ∈ d.map Prod.fst) : ∃ r, dictLookup d k = some r := by
  induction d with
  | nil => cases h
  | cons e d ih =>
    obtain ⟨k0, v0⟩ := e
    by_cases hk : k0 = k
    · exact ⟨v0, by simp [dictLookup, hk]⟩
    · simp only [List.map_cons, List.mem_cons] at h
      rcases h with h | h
      · exact absurd h.symm hk
      · obtain ⟨r, hr⟩ := ih h
        exact ⟨r, by simp [dictLookup, hk, hr]⟩

theorem dictLookup_dictSet_self (d : RegistryDoc) (k : String) (v : ModelInfo) :
    dictLookup (dictSet d k v) k = some v := by
  induction d with
  | nil => simp [dictSet, dictLookup]
  | cons e d ih =>
    obtain ⟨k0, v0⟩ := e
    simp only [dictSet]
    by_cases hk : k0 = k
    · rw [if_pos hk]
      simp [dictLookup]
    · rw [if_neg hk]
      simp only [dictLookup, if_neg hk]
      exact ih

theorem dictLookup_dictSetStatus_self {d : RegistryDoc} {k : String} {r : ModelInfo}
    (st : String) (h : dictLookup d k = some r) :
    dictLookup (dictSetStatus d k st) k = some { r with status := st } := by
  induction d with
  | nil => cases h
  | cons e d ih =>
    obtain ⟨k0, v0⟩ := e
    simp only [dictLookup] at h
    simp only [dictSetStatus]
    by_cases hk : k0 = k
    · rw [if_pos hk] at h ⊢
      simp only [dictLookup, if_pos hk]
      rw [Option.some.inj h]
    · rw [if_neg hk] at h ⊢
      simp only [dictLookup, if_neg hk]
      exact ih h

theorem registered_at_key_eq {d : RegistryDoc} {k : String} {r : ModelInfo}
    (h : dictLookup d k = some r) : registered_at_key d k = r.registered_at := by
  simp [registered_at_key, h]

theorem maxStep_le_left (d : RegistryDoc) (acc k2 : String) :
    registered_at_key d acc ≤ registered_at_key d (maxStep d acc k2) := by
  unfold maxStep
  split_ifs with h
  · exact le_of_lt ((pyStrLt_iff_lt _ _).mp h)
  · exact le_refl _

theorem maxStep_le_right (d : RegistryDoc) (acc k2 : String) :
    registered_at_key d k2 ≤ registered_at_key d (maxStep d acc k2) := by
  unfold maxStep
  split_ifs with h
  · exact le_refl _
  · exact not_lt.mp (fun hlt => h ((pyStrLt_iff_lt _ _).mpr hlt))

theorem foldl_maxStep_mem (d : RegistryDoc) (ks : List String) (a : String) :
    ks.foldl (maxStep d) a = a ∨ ks.foldl (maxStep d) a ∈ ks := by
  induction ks generalizing a with
  | nil => exact Or.inl rfl
  | cons x xs ih =>
    simp only [List.foldl_cons]
    rcases ih (maxStep d a x) with h | h
    · rw [h]
      unfold maxStep
      split_ifs
      · exact Or.inr (List.mem_cons_self x xs)
      · exact Or.inl rfl
    · exact Or.inr (List.mem_cons_of_mem x h)

theorem le_foldl_maxStep (d : RegistryDoc) (ks : List String) (a : String) :
    registered_at_key d a ≤ registered_at_key d (ks.foldl (maxStep d) a) := by
  induction ks generalizing a with
  | nil => exact le_refl _
  | cons x xs ih => exact le_trans (maxStep_le_left d a x) (ih (maxStep d a x))

theorem mem_le_foldl_maxStep (d : RegistryDoc) (ks : List String) :
    ∀ (a y : String), y ∈ ks →
      registered_at_key d y ≤ registered_at_key d (ks.foldl (maxStep d) a) := by
  induction ks with
  | nil => intro a y hy; cases hy
  | cons x xs ih =>
    intro a y hy
    simp only [List.foldl_cons]
    rcases List.mem_cons.mp hy with h | h
    · subst h
      exact le_trans (maxStep_le_right d a y) (le_foldl_maxStep d xs _)
    · exact ih (maxStep d a x) y h

theorem maxByRegisteredAt_spec (d : RegistryDoc) (ks : List String) (hks : ks ≠ []) :
    ∃ m, maxByRegisteredAt d ks = some m ∧ m ∈ ks ∧
      ∀ y ∈ ks, registered_at_key d y ≤ registered_at_key d m := by
  cases ks with
  | nil => exact absurd rfl hks
  | cons k kt =>
    refine ⟨kt.foldl (maxStep d) k, rfl, ?_, ?_⟩
    · rcases foldl_maxStep_mem d kt k with h | h
      · rw [h]; exact List.mem_cons_self k kt
      · exact List.mem_cons_of_mem k h
    · intro y hy
      rcases List.mem_cons.mp hy with h | h
      · subst h
        exact le_foldl_maxStep d kt y
      · exact mem_le_foldl_maxStep d kt k y h

/-- The latest-resolution branch returns the record of a prefix key whose
registration timestamp dominates every other prefix key. -/
theorem resolve_latest_spec (s : RegistryState) (name : String)
    (hne : prefixKeys s name ≠ []) :
    ∃ k r, k ∈ prefixKeys s name ∧ dictLookup s.registry k = some r ∧
      resolve_latest s name = some r ∧
      ∀ k2 r2, k2 ∈ prefixKeys s name → dictLookup s.registry k2 = some r2 →
        r2.registered_at ≤ r.registered_at := by
  obtain ⟨m, hmax, hmem, hub⟩ := maxByRegisteredAt_spec s.registry (prefixKeys s name) hne
  have hkeys : m ∈ s.registry.map Prod.fst := List.mem_of_mem_filter hmem
  obtain ⟨r, hr⟩ := mem_keys_dictLookup hkeys
  refine ⟨m, r, hmem, hr, ?_, ?_⟩
  · simp [resolve_latest, hmax, hr]
  · intro k2 r2 hk2 hr2
    have h := hub k2 hk2
    rwa [registered_at_key_eq hr, registered_at_key_eq hr2] at h

/-- Reads depend only on the in-memory mapping, not on the store field. -/
theorem get_model_info_eq_of_registry_eq (s1 s2 : RegistryState)
    (name version : String) (h : s1.registry = s2.registry) :
    get_model_info s1 name version = get_model_info s2 name version := by
  obtain ⟨r1, st1⟩ := s1
  obtain ⟨r2, st2⟩ := s2
  cases h
  rfl

/-- A probe that fails on every attempt drives the loop through all the
remaining attempts, sleeping once per failed attempt, the last included. -/
theorem retryFrom_all_false (probe : Nat → Bool) (hp : ∀ i, probe i = false) :
    ∀ (fuel a : Nat),
      retryFrom probe a fuel =
        { passed := false, invocations := fuel, sleeps := fuel } := by
  intro fuel
  induction fuel with
  | zero => intro a; rfl
  | succ n ih =>
    intro a
    simp only [retryFrom, hp a, Bool.false_eq_true, if_false, ih (a + 1)]

/-- When the probe first succeeds on attempt index `a + k` (within the
budget), the loop stops there: `k + 1` invocations and `k` sleeps. -/
theorem retryFrom_first_success (probe : Nat → Bool) :
    ∀ (k fuel a : Nat), k < fuel → (∀ j, j < k → probe (a + j) = false) →
      probe (a + k) = true →
      retryFrom probe a fuel = { passed := true, invocations := k + 1, sleeps := k } := by
  intro k
  induction k with
  | zero =>
    intro fuel a hk hj hp
    cases fuel with
    | zero => exact absurd hk (lt_irrefl 0)
    | succ n =>
      rw [Nat.add_zero] at hp
      simp only [retryFrom, hp, if_true]
  | succ k ih =>
    intro fuel a hk hj hp
    cases fuel with
    | zero => exact absurd hk (Nat.not_lt_zero _)
    | succ n =>
      have h0 : probe a = false := by
        have := hj 0 (Nat.succ_pos k)
        simpa using this
      have hrec : retryFrom probe (a + 1) n =
          { passed := true, invocations := k + 1, sleeps := k } := by
        refine ih n (a + 1) (Nat.lt_of_succ_lt_succ hk) ?_ ?_
        · intro j hjk
          have := hj (j + 1) (Nat.succ_lt_succ hjk)
          have harr : a + (j + 1) = a + 1 + j := by omega
          rwa [harr] at this
        · have harr : a + (k + 1) = a + 1 + k := by omega
          rwa [harr] at hp
      simp only [retryFrom, h0, Bool.false_eq_true, if_false, hrec]

/-- A run that passes never sleeps after the successful attempt: the
sleep count is one less than the invocation count. -/
theorem retryFrom_passed_sleeps (probe : Nat → Bool) :
    ∀ (fuel a : Nat), (retryFrom probe a fuel).passed = true →
      (retryFrom probe a fuel).sleeps + 1 = (retryFrom probe a fuel).invocations := by
  intro fuel
  induction fuel with
  | zero =>
    intro a h
    simp [retryFrom] at h
  | succ n ih =>
    intro a h
    by_cases hp : probe a
    · simp [retryFrom, hp]
    · simp only [retryFrom, hp, Bool.false_eq_true, if_false] at h ⊢
      have := ih (a + 1) h
      omega

/-- Service types off the four known keys are absent from `self.checks`. -/
theorem checks_eq_none (hc : HealthChecker) (s : String)
    (h1 : s ≠ "api") (h2 : s ≠ "database") (h3 : s ≠ "redis") (h4 : s ≠ "models") :
    hc.checks s = none := by
  simp [HealthChecker.checks, h1, h2, h3, h4]

/-! ## Claim theorems -/

/-- C1, counterexample: the claim says `updateStatus` on a missing key
fails with `NotFound`; in the code the call returns normally (the method
body just falls through), so on the empty registry the outcome is a plain
return, not a `NotFound` failure. -/
theorem updateStatus_missing_not_notfound :
    (RegistryStep (registry_init none)
        (RegOp.updateStatus "missing" "v1" "archived")).2 ≠
      RegOutcome.fail RegError.NotFound ∧
    RegistryStep (registry_init none) (RegOp.updateStatus "missing" "v1" "archived") =
      (registry_init none, RegOutcome.ret) := by
  refine ⟨?_, rfl⟩
  intro h
  cases h

/-- C1, amended: `updateStatus` on a key with no record is a silent no-op:
it signals no error, creates no record, and leaves the in-memory registry
and the persisted document exactly unchanged. -/
theorem updateStatus_missing_silent_noop (s : RegistryState)
    (name version status : String)
    (h : dictLookup s.registry (name ++ ":" ++ version) = none) :
    RegistryStep s (RegOp.updateStatus name version status) = (s, RegOutcome.ret) := by
  simp [RegistryStep, update_model_status, h]

/-- Witness for the amended C1 at a concrete missing key. -/
theorem updateStatus_missing_silent_noop_witness :
    RegistryStep exState0 (RegOp.updateStatus "missing" "v1" "archived") =
      (exState0, RegOutcome.ret) :=
  updateStatus_missing_silent_noop exState0 "missing" "v1" "archived" (by decide)

/-- C2, counterexample: the claim says a status value outside
{active, deprecated, archived} fails with `InvalidArgument` and leaves
the stored status unchanged; in the code `updateStatus("m","v1","bogus")`
returns normally, stores the status `bogus`, and persists it. -/
theorem updateStatus_bogus_accepted :
    (RegistryStep exStateV1 (RegOp.updateStatus "m" "v1" "bogus")).2 ≠
      RegOutcome.fail RegError.InvalidArgument ∧
    dictLookup (RegistryStep exStateV1 (RegOp.updateStatus "m" "v1" "bogus")).1.registry
        "m:v1" =
      some { name := "m", version := "v1", model_path := "models/m1.pth",
             model_type := "classification", metrics := [("accuracy", 1)],
             metadata := [], registered_at := "2024-01-01T00:00:00",
             status := "bogus" } ∧
    (RegistryStep exStateV1 (RegOp.updateStatus "m" "v1" "bogus")).1.store =
      some (RegistryStep exStateV1 (RegOp.updateStatus "m" "v1" "bogus")).1.registry := by
  refine ⟨?_, by decide, by decide⟩
  intro h
  cases h

/-- C2, amended: on an existing record, `updateStatus` accepts every
status string (the code validates nothing): it returns normally, sets the
status field of that record to the given value, and persists the updated
mapping. -/
theorem updateStatus_accepts_any_value (s : RegistryState)
    (name version status : String) (r : ModelInfo)
    (h : dictLookup s.registry (name ++ ":" ++ version) = some r) :
    RegistryStep s (RegOp.updateStatus name version status) =
      ({ registry := dictSetStatus s.registry (name ++ ":" ++ version) status,
         store := some (dictSetStatus s.registry (name ++ ":" ++ version) status) },
       RegOutcome.ret) ∧
    dictLookup (dictSetStatus s.registry (name ++ ":" ++ version) status)
        (name ++ ":" ++ version) = some { r with status := status } := by
  constructor
  · simp [RegistryStep, update_model_status, h]
  · exact dictLookup_dictSetStatus_self status h

/-- Witness for the amended C2 at a concrete record and status value. -/
theorem updateStatus_accepts_any_value_witness :
    RegistryStep exStateV1 (RegOp.updateStatus "m" "v1" "bogus") =
      ({ registry := dictSetStatus exStateV1.registry ("m" ++ ":" ++ "v1") "bogus",
         store := some (dictSetStatus exStateV1.registry ("m" ++ ":" ++ "v1") "bogus") },
       RegOutcome.ret) :=
  (updateStatus_accepts_any_value exStateV1 "m" "v1" "bogus"
    { name := "m", version := "v1", model_path := "models/m1.pth",
      model_type := "classification", metrics := [("accuracy", 1)],
      metadata := [], registered_at := "2024-01-01T00:00:00", status := "active" }
    (by decide)).1

/-- C3, counterexample: the claim says every read is determined solely by
the persisted document at call time.  Here are two service states with
identical persisted documents (one loaded the document at construction,
the other was constructed over a missing file after which the document
changed externally) whose reads of `("m","v1")` differ: the stale
instance returns nothing even though the document holds the record. -/
theorem stale_read_after_doc_change :
    (doc_changed (registry_init none) exDocV1).store =
      (registry_init (some exDocV1)).store ∧
    get_model_info (doc_changed (registry_init none) exDocV1) "m" "v1" = none ∧
    get_model_info (registry_init (some exDocV1)) "m" "v1" ≠ none := by
  refine ⟨rfl, by decide, by decide⟩

/-- C3, amended: the Registry Service caches the registry in memory at
construction; every read (`getInfo`, `listAll`) is determined solely by
the in-memory mapping, and a change of the persisted document under a
running instance is not observed by its reads. -/
theorem reads_determined_by_memory (s1 s2 : RegistryState) (d : RegistryDoc)
    (name version : String) (h : s1.registry = s2.registry) :
    get_model_info s1 name version = get_model_info s2 name version ∧
    list_models s1 = list_models s2 ∧
    get_model_info (doc_changed s1 d) name version = get_model_info s1 name version ∧
    list_models (doc_changed s1 d) = list_models s1 := by
  refine ⟨get_model_info_eq_of_registry_eq s1 s2 name version h, h, ?_, rfl⟩
  exact get_model_info_eq_of_registry_eq (doc_changed s1 d) s1 name version rfl

/-- Witness for the amended C3 at concrete states. -/
theorem reads_determined_by_memory_witness :
    get_model_info exStateV1 "m" "v1" =
      get_model_info (doc_changed exStateV1 []) "m" "v1" ∧
    get_model_info (doc_changed exStateV1 []) "m" "v1" =
      get_model_info exStateV1 "m" "v1" :=
  ⟨(reads_determined_by_memory exStateV1 (doc_changed exStateV1 []) [] "m" "v1" rfl).1,
   (reads_determined_by_memory exStateV1 exStateV1 [] "m" "v1" rfl).2.2.1⟩

/-- C4, counterexample: the claim assumes the orchestrator can run with
`maxAttempts = 3` and `retryDelay = 0`; in the code both are fixed local
constants, 30 attempts and 2 seconds, and an always-false probe is
invoked exactly 30 times, not 3. -/
theorem always_false_thirty_invocations :
    max_retries = 30 ∧ max_retries ≠ 3 ∧ retry_delay = 2 ∧ retry_delay ≠ 0 ∧
    (run_health_check hcAllFalse "api").invocations = 30 ∧
    (run_health_check hcAllFalse "api").invocations ≠ 3 ∧
    (run_health_check hcAllFalse "api").passed = false := by
  refine ⟨rfl, by decide, rfl, by decide, by decide, by decide, by decide⟩

/-- C4, amended: the attempt bound and delay are the fixed constants 30
and 2.  With the code constants, an always-false probe is invoked exactly
30 times and the run ends failed; a probe returning false, false, true is
invoked exactly 3 times, ends passed, and no further attempt follows the
true result; with the loop budget instantiated at 3, an always-false
probe is invoked exactly 3 times and the run ends failed. -/
theorem retry_loop_invocation_counts (hc1 hc2 : HealthChecker)
    (hp : ∀ i, hc1.api_probe i = false)
    (h0 : hc2.api_probe 0 = false) (h1 : hc2.api_probe 1 = false)
    (h2 : hc2.api_probe 2 = true) :
    run_health_check hc1 "api" =
      { passed := false, invocations := max_retries, sleeps := max_retries } ∧
    run_health_check hc2 "api" = { passed := true, invocations := 3, sleeps := 2 } ∧
    retryFrom hc1.api_probe 0 3 =
      { passed := false, invocations := 3, sleeps := 3 } := by
  refine ⟨?_, ?_, retryFrom_all_false hc1.api_probe hp 3 0⟩
  · simp only [run_health_check, HealthChecker.checks, if_pos rfl]
    exact retryFrom_all_false hc1.api_probe hp max_retries 0
  · simp only [run_health_check, HealthChecker.checks, if_pos rfl]
    refine retryFrom_first_success hc2.api_probe 2 max_retries 0 (by decide) ?_ h2
    intro j hj
    interval_cases j
    · exact h0
    · exact h1

/-- Witness for the amended C4 on the two concrete probes. -/
theorem retry_loop_invocation_counts_witness :
    run_health_check hcAllFalse "api" =
      { passed := false, invocations := max_retries, sleeps := max_retries } ∧
    run_health_check hcFFT "api" =
      { passed := true, invocations := 3, sleeps := 2 } :=
  ⟨(retry_loop_invocation_counts hcAllFalse hcFFT (fun _ => rfl)
      (by decide) (by decide) (by decide)).1,
   (retry_loop_invocation_counts hcAllFalse hcFFT (fun _ => rfl)
      (by decide) (by decide) (by decide)).2.1⟩

/-- C5: resolving version `"latest"` returns nothing when no key carries
the `name:` prefix, and otherwise returns a record of a prefix key whose
registration timestamp is maximal among all prefix keys; in particular,
with `("m","v1")` at t1 and `("m","v2")` at t2 > t1, it returns the v2
record. -/
theorem getInfo_latest_resolves_max (s : RegistryState) (name : String) :
    (prefixKeys s name = [] → get_model_info s name "latest" = none) ∧
    (prefixKeys s name ≠ [] →
      ∃ k r, k ∈ prefixKeys s name ∧ dictLookup s.registry k = some r ∧
        get_model_info s name "latest" = some r ∧
        ∀ k2 r2, k2 ∈ prefixKeys s name → dictLookup s.registry k2 = some r2 →
          r2.registered_at ≤ r.registered_at) ∧
    get_model_info exStateV1V2 "m" "latest" =
      some { name := "m", version := "v2", model_path := "models/m2.pth",
             model_type := "classification", metrics := [("accuracy", 2)],
             metadata := [], registered_at := "2024-06-01T00:00:00",
             status := "active" } := by
  refine ⟨?_, ?_, by decide⟩
  · intro h
    simp [get_model_info, resolve_latest, h, maxByRegisteredAt]
  · intro h
    have hspec := resolve_latest_spec s name h
    simpa [get_model_info] using hspec

/-- Witness for C5 on a concrete two-version registry. -/
theorem getInfo_latest_resolves_max_witness :
    ∃ k r, k ∈ prefixKeys exStateV1V2 "m" ∧
      dictLookup exStateV1V2.registry k = some r ∧
      get_model_info exStateV1V2 "m" "latest" = some r ∧
      ∀ k2 r2, k2 ∈ prefixKeys exStateV1V2 "m" →
        dictLookup exStateV1V2.registry k2 = some r2 →
        r2.registered_at ≤ r.registered_at :=
  (getInfo_latest_resolves_max exStateV1V2 "m").2.1 (by decide)

/-- C6, counterexample: the claim says the orchestrator waits exactly
`maxAttempts - 1` times when every attempt fails; in the code the loop
sleeps after every failed attempt, the final one included, so an
always-false probe produces 30 sleeps, not 29. -/
theorem sleeps_after_last_failed_attempt :
    (run_health_check hcAllFalse "api").sleeps = max_retries ∧
    (run_health_check hcAllFalse "api").sleeps ≠ max_retries - 1 := by
  exact ⟨by decide, by decide⟩

/-- C6, amended: when the probe fails on every attempt the orchestrator
sleeps exactly `maxAttempts` times (it also sleeps after the final failed
attempt), so the blocking time is `maxAttempts * retryDelay` plus probe
latency; after a successful attempt it never sleeps, so a passing run has
one sleep fewer than it has invocations. -/
theorem sleep_count_amended (hc1 hc2 : HealthChecker) (service2 : String)
    (hp : ∀ i, hc1.api_probe i = false)
    (hq : (run_health_check hc2 service2).passed = true) :
    (run_health_check hc1 "api").sleeps = max_retries ∧
    (run_health_check hc1 "api").invocations = max_retries ∧
    (run_health_check hc2 service2).sleeps + 1 =
      (run_health_check hc2 service2).invocations := by
  have hrun : run_health_check hc1 "api" =
      { passed := false, invocations := max_retries, sleeps := max_retries } := by
    simp only [run_health_check, HealthChecker.checks, if_pos rfl]
    exact retryFrom_all_false hc1.api_probe hp max_retries 0
  refine ⟨by rw [hrun], by rw [hrun], ?_⟩
  unfold run_health_check at hq ⊢
  cases hcheck : hc2.checks service2 with
  | none =>
    rw [hcheck] at hq
    cases hq
  | some probe =>
    rw [hcheck] at hq
    exact retryFrom_passed_sleeps probe max_retries 0 hq

/-- Witness for the amended C6 on concrete probes. -/
theorem sleep_count_amended_witness :
    (run_health_check hcAllFalse "api").sleeps = max_retries ∧
    (run_health_check hcFFT "api").sleeps + 1 =
      (run_health_check hcFFT "api").invocations :=
  ⟨(sleep_count_amended hcAllFalse hcFFT "api" (fun _ => rfl) (by decide)).1,
   (sleep_count_amended hcAllFalse hcFFT "api" (fun _ => rfl) (by decide)).2.2⟩

/-- C7: registering the same `(name, version)` twice returns normally
both times (no error is signalled) and the second registration overwrites
the first: an exact lookup afterwards yields precisely the second record,
whose `registered_at` is the second timestamp, not the first (stated for
exact versions, i.e. versions other than the reserved token `"latest"`,
whose lookup path is the subject of C10). -/
theorem register_twice_overwrites (s : RegistryState)
    (name version p1 t1 now1 p2 t2 now2 : String)
    (m1 m2 : List (String × Int)) (md1 md2 : Option (List (String × String)))
    (hv : version ≠ "latest") (ht : now1 ≠ now2) :
    (RegistryStep (register_model s name version p1 t1 m1 md1 now1)
        (RegOp.register name version p2 t2 m2 md2 now2)).2 = RegOutcome.ret ∧
    get_model_info
        (register_model (register_model s name version p1 t1 m1 md1 now1)
          name version p2 t2 m2 md2 now2) name version =
      some { name := name, version := version, model_path := p2,
             model_type := t2, metrics := m2, metadata := md2.getD [],
             registered_at := now2, status := "active" } ∧
    ∀ r, get_model_info
        (register_model (register_model s name version p1 t1 m1 md1 now1)
          name version p2 t2 m2 md2 now2) name version = some r →
      r.registered_at = now2 ∧ r.registered_at ≠ now1 := by
  have hlook : get_model_info
      (register_model (register_model s name version p1 t1 m1 md1 now1)
        name version p2 t2 m2 md2 now2) name version =
      some { name := name, version := version, model_path := p2,
             model_type := t2, metrics := m2, metadata := md2.getD [],
             registered_at := now2, status := "active" } := by
    simp only [get_model_info, if_neg hv, register_model]
    exact dictLookup_dictSet_self _ _ _
  refine ⟨rfl, hlook, ?_⟩
  intro r hr
  rw [hlook] at hr
  have hreq := Option.some.inj hr
  constructor
  · rw [← hreq]
  · rw [← hreq]
    exact fun he => ht he.symm

/-- Witness for C7 at two concrete registrations of `("m","v1")`. -/
theorem register_twice_overwrites_witness :
    get_model_info
        (register_model (register_model exState0 "m" "v1" "a.pth" "classification"
          [("accuracy", 1)] none "2024-01-01T00:00:00")
          "m" "v1" "b.pth" "detection" [("accuracy", 2)] none "2024-06-01T00:00:00")
        "m" "v1" =
      some { name := "m", version := "v1", model_path := "b.pth",
             model_type := "detection", metrics := [("accuracy", 2)],
             metadata := [], registered_at := "2024-06-01T00:00:00",
             status := "active" } :=
  (register_twice_overwrites exState0 "m" "v1" "a.pth" "classification"
    "2024-01-01T00:00:00" "b.pth" "detection" "2024-06-01T00:00:00"
    [("accuracy", 1)] [("accuracy", 2)] none none
    (by decide) (by decide)).2.1

/-- C8: the CLI entry point exits 0 exactly when the run passed; it exits
1 when the run failed, and in particular on any service name outside
{api, database, redis, models}, where the run returns false without
probing. -/
theorem cli_exit_codes (hc : HealthChecker) (service_type : String) :
    ((run_health_check hc service_type).passed = true →
      main_exit_code hc service_type = 0) ∧
    ((run_health_check hc service_type).passed = false →
      main_exit_code hc service_type = 1) ∧
    (service_type ≠ "api" → service_type ≠ "database" → service_type ≠ "redis" →
      service_type ≠ "models" →
      (run_health_check hc service_type).passed = false ∧
      main_exit_code hc service_type = 1) := by
  refine ⟨?_, ?_, ?_⟩
  · intro h
    simp [main_exit_code, h]
  · intro h
    simp [main_exit_code, h]
  · intro h1 h2 h3 h4
    have hrun : run_health_check hc service_type =
        { passed := false, invocations := 0, sleeps := 0 } := by
      simp [run_health_check, checks_eq_none hc service_type h1 h2 h3 h4]
    constructor
    · rw [hrun]
    · simp [main_exit_code, hrun]

/-- Witness for C8: a passing run exits 0, a failing run exits 1, an
unknown service name exits 1. -/
theorem cli_exit_codes_witness :
    main_exit_code hcFFT "api" = 0 ∧
    main_exit_code hcAllFalse "api" = 1 ∧
    main_exit_code hcAllFalse "bogus" = 1 :=
  ⟨(cli_exit_codes hcFFT "api").1 (by decide),
   (cli_exit_codes hcAllFalse "api").2.1 (by decide),
   ((cli_exit_codes hcAllFalse "bogus").2.2 (by decide) (by decide)
     (by decide) (by decide)).2⟩

/-- C9: the read operations leave the service state — the in-memory
mapping and the persisted document — exactly as it was; they only deliver
a value to the caller. -/
theorem read_ops_preserve_state (s : RegistryState) (name version : String) :
    RegistryStep s (RegOp.getInfo name version) =
      (s, RegOutcome.info (get_model_info s name version)) ∧
    RegistryStep s RegOp.listAll = (s, RegOutcome.listing (list_models s)) ∧
    (RegistryStep s (RegOp.getInfo name version)).1.registry = s.registry ∧
    (RegistryStep s (RegOp.getInfo name version)).1.store = s.store ∧
    (RegistryStep s RegOp.listAll).1.registry = s.registry ∧
    (RegistryStep s RegOp.listAll).1.store = s.store :=
  ⟨rfl, rfl, rfl, rfl, rfl, rfl⟩

/-- C10: a `getInfo` call with version `"latest"` always runs the
latest-by-timestamp resolution, so a record stored under the literal key
`name:latest` is not retrieved by exact-key lookup: whenever some other
version of the name has a later registration timestamp, the call returns
that record, not the one stored under `name:latest`. -/
theorem latest_token_shadows_exact_key (s : RegistryState) (name k2 : String)
    (r r2 : ModelInfo)
    (hlat : dictLookup s.registry (name ++ ":" ++ "latest") = some r)
    (hk2 : dictLookup s.registry k2 = some r2)
    (hpre : pyStartsWith (name ++ ":") k2 = true)
    (hlt : r.registered_at < r2.registered_at) :
    (∀ s0 n0, get_model_info s0 n0 "latest" = resolve_latest s0 n0) ∧
    get_model_info s name "latest" ≠ some r ∧
    get_model_info s name "latest" ≠
      dictLookup s.registry (name ++ ":" ++ "latest") := by
  have hbranch : ∀ s0 n0, get_model_info s0 n0 "latest" = resolve_latest s0 n0 := by
    intro s0 n0
    simp [get_model_info]
  have hk2keys : k2 ∈ s.registry.map Prod.fst := dictLookup_mem_keys hk2
  have hk2mem : k2 ∈ prefixKeys s name := by
    rw [prefixKeys, List.mem_filter]
    exact ⟨hk2keys, hpre⟩
  have hne : prefixKeys s name ≠ [] := by
    intro h
    rw [h] at hk2mem
    cases hk2mem
  obtain ⟨m, rm, hmmem, hmr, hres, hub⟩ := resolve_latest_spec s name hne
  have hge : r2.registered_at ≤ rm.registered_at := hub k2 r2 hk2mem hk2
  have hrm : rm ≠ r := by
    intro he
    rw [he] at hge
    exact absurd (lt_of_lt_of_le hlt hge) (lt_irrefl _)
  have hresult : get_model_info s name "latest" = some rm := by
    rw [hbranch s name]
    exact hres
  refine ⟨hbranch, ?_, ?_⟩
  · rw [hresult]
    exact fun he => hrm (Option.some.inj he)
  · rw [hresult, hlat]
    exact fun he => hrm (Option.some.inj he)

/-- Witness for C10: with `m:latest` registered at t1 and `m:v2` at
t2 > t1, resolving `("m","latest")` does not return the record stored
under `m:latest`. -/
theorem latest_token_shadows_exact_key_witness :
    get_model_info exStateLatV2 "m" "latest" ≠ some exRecLat ∧
    get_model_info exStateLatV2 "m" "latest" ≠
      dictLookup exStateLatV2.registry ("m" ++ ":" ++ "latest") :=
  ⟨(latest_token_shadows_exact_key exStateLatV2 "m" "m:v2" exRecLat exRecLatV2
      (by decide) (by decide) (by decide)
      ((pyStrLt_iff_lt exRecLat.registered_at exRecLatV2.registered_at).mp
        (by decide))).2.1,
   (latest_token_shadows_exact_key exStateLatV2 "m" "m:v2" exRecLat exRecLatV2
      (by decide) (by decide) (by decide)
      ((pyStrLt_iff_lt exRecLat.registered_at exRecLatV2.registered_at).mp
        (by decide))).2.2⟩

end MLChallenge
